import Mathlib

/-!
Verification of the SoupBoss embedding pipeline and similarity-matching engine.

The Python source (src/soupboss/) is shallowly embedded: numpy float arrays
become `List ℝ`, SQLite tables become Lean lists, rational scores stand in for
floats where only ordering and exact arithmetic matter, and the two
non-value float outcomes a similarity computation can have (NaN from a
division by a zero norm, and the ValueError numpy raises on a shape
mismatch) are made explicit by the `SimOutcome` type.
-/

namespace SoupBoss

/-- `np.dot(a, b)` for equal-length 1-D arrays: the sum of pointwise products.
(`List.zipWith` truncates on unequal lengths; the embedding only uses `dot`
on equal-length lists or under an explicit length guard.) -/
def dot (a b : List ℝ) : ℝ := (List.zipWith (fun x y => x * y) a b).sum

/-- `np.linalg.norm(a)`: the Euclidean norm, the square root of `dot a a`. -/
noncomputable def linalg_norm (a : List ℝ) : ℝ := Real.sqrt (dot a a)

/-- Outcome of a float-valued similarity computation:
a finite real value, NaN, or a raised exception. -/
inductive SimOutcome where
  | val (x : ℝ)
  | nan
  | raises

/-- Model of `SimilarityMatcher._cosine_similarity` (src/soupboss/matching.py,
lines 451-460):

    a_norm = a / np.linalg.norm(a)
    b_norm = b / np.linalg.norm(b)
    similarity = np.dot(a_norm, b_norm)

There is no zero-norm or dimension guard in the source.  The observable float
behaviour is made explicit:
* unequal lengths: `np.dot` raises `ValueError` (shapes not aligned), modeled
  as `SimOutcome.raises`;
* both vectors empty: dividing the empty array by its zero norm yields the
  empty array (no NaN entries appear) and the empty dot product is `0.0`;
* a nonempty vector with zero norm: every entry becomes `0.0/0.0 = NaN`
  (numpy warns but does not raise), and the dot product is NaN, modeled as
  `SimOutcome.nan`;
* otherwise the normalized dot product, a finite real. -/
noncomputable def cosine_similarity (a b : List ℝ) : SimOutcome :=
  if a.length ≠ b.length then SimOutcome.raises
  else if a.length = 0 then SimOutcome.val 0
  else if linalg_norm a = 0 ∨ linalg_norm b = 0 then SimOutcome.nan
  else SimOutcome.val
    (dot (a.map fun x => x / linalg_norm a) (b.map fun x => x / linalg_norm b))

/-- Model of the inline cosine similarity of
`EmbeddingModelEvaluator._calculate_sample_similarities`
(src/soupboss/embedding_evaluation.py, lines 277-282):

    dot_product = np.dot(resume_embedding, job_embedding)
    norm_a = np.linalg.norm(resume_embedding)
    norm_b = np.linalg.norm(job_embedding)
    similarity = dot_product / (norm_a * norm_b) if (norm_a * norm_b) != 0 else 0.0

Unlike the matcher's version this one guards the zero-norm case, returning
exactly `0.0`.  `np.dot` still raises on a shape mismatch. -/
noncomputable def sample_similarity (a b : List ℝ) : SimOutcome :=
  if a.length ≠ b.length then SimOutcome.raises
  else SimOutcome.val
    (if linalg_norm a * linalg_norm b ≠ 0
     then dot a b / (linalg_norm a * linalg_norm b) else 0)

theorem dot_nil_left (b : List ℝ) : dot [] b = 0 := rfl

theorem dot_nil_right (a : List ℝ) : dot a [] = 0 := by
  cases a <;> rfl

theorem dot_cons (x y : ℝ) (a b : List ℝ) :
    dot (x :: a) (y :: b) = x * y + dot a b := rfl

theorem dot_self_nonneg (a : List ℝ) : 0 ≤ dot a a := by
  induction a with
  | nil => simp [dot]
  | cons x xs ih =>
      rw [dot_cons]
      have hx : 0 ≤ x * x := mul_self_nonneg x
      linarith

theorem linalg_norm_nonneg (a : List ℝ) : 0 ≤ linalg_norm a :=
  Real.sqrt_nonneg _

theorem linalg_norm_mul_self (a : List ℝ) :
    linalg_norm a * linalg_norm a = dot a a :=
  Real.mul_self_sqrt (dot_self_nonneg a)

theorem linalg_norm_nil : linalg_norm [] = 0 := by
  simp [linalg_norm, dot]

/-- Scaling both arguments of `dot` scales the result. -/
theorem dot_map_mul (u v : ℝ) :
    ∀ a b : List ℝ,
      dot (a.map fun x => x * u) (b.map fun x => x * v) = dot a b * (u * v)
  | [], _ => by simp [dot]
  | _ :: _, [] => by simp [dot]
  | x :: a, y :: b => by
      simp only [List.map_cons, dot_cons, dot_map_mul u v a b]
      ring

/-- Dividing both arguments of `dot` by scalars divides the result. -/
theorem dot_map_div (u v : ℝ) (a b : List ℝ) :
    dot (a.map fun x => x / u) (b.map fun x => x / v) = dot a b / (u * v) := by
  have := dot_map_mul u⁻¹ v⁻¹ a b
  simp only [div_eq_mul_inv, mul_inv]
  exact this

/-- Key quadratic step of the list Cauchy-Schwarz induction. -/
theorem cs_step (x y d A B : ℝ) (hA : 0 ≤ A) (hB : 0 ≤ B) (hd : d ^ 2 ≤ A * B) :
    (x * y + d) ^ 2 ≤ (x * x + A) * (y * y + B) := by
  rcases eq_or_lt_of_le hB with hB0 | hBpos
  · have hd0 : d = 0 := by nlinarith [sq_nonneg d]
    subst hd0
    nlinarith [sq_nonneg x, sq_nonneg y, mul_nonneg (mul_self_nonneg y) hA]
  · nlinarith [sq_nonneg (x * B - y * d), mul_nonneg (sq_nonneg y) (sub_nonneg.mpr hd),
      mul_pos hBpos hBpos, sq_nonneg (x * y - d)]

/-- Cauchy-Schwarz for list dot products (no length hypothesis needed:
`zipWith` truncation only drops nonnegative square terms on the right). -/
theorem dot_sq_le : ∀ a b : List ℝ, (dot a b) ^ 2 ≤ dot a a * dot b b
  | [], b => by simp [dot]
  | _ :: _, [] => by
      rw [dot_nil_right, dot_nil_right]
      simp
  | x :: a, y :: b => by
      have ih := dot_sq_le a b
      simp only [dot_cons]
      exact cs_step x y (dot a b) (dot a a) (dot b b)
        (dot_self_nonneg a) (dot_self_nonneg b) ih

theorem linalg_norm_eq_zero_iff (a : List ℝ) :
    linalg_norm a = 0 ↔ dot a a = 0 := by
  unfold linalg_norm
  rw [Real.sqrt_eq_zero (dot_self_nonneg a)]

/-- On equal-length inputs with nonzero norms, the matcher's cosine
similarity returns the normalized dot product. -/
theorem cosine_similarity_of_nonzero (a b : List ℝ) (h : a.length = b.length)
    (hna : linalg_norm a ≠ 0) (hnb : linalg_norm b ≠ 0) :
    cosine_similarity a b
      = SimOutcome.val (dot a b / (linalg_norm a * linalg_norm b)) := by
  have ha0 : a.length ≠ 0 := by
    intro h0
    apply hna
    cases a with
    | nil => exact linalg_norm_nil
    | cons x xs => simp at h0
  unfold cosine_similarity
  rw [if_neg (not_not_intro h), if_neg ha0,
    if_neg (not_or.mpr ⟨hna, hnb⟩), dot_map_div]

/-- On equal-length inputs with a nonempty zero-norm vector, the matcher's
cosine similarity is NaN. -/
theorem cosine_similarity_of_zero (a b : List ℝ) (h : a.length = b.length)
    (ha : a ≠ []) (hz : linalg_norm a = 0 ∨ linalg_norm b = 0) :
    cosine_similarity a b = SimOutcome.nan := by
  have ha0 : a.length ≠ 0 := by simpa [List.length_eq_zero] using ha
  unfold cosine_similarity
  rw [if_neg (not_not_intro h), if_neg ha0, if_pos hz]

/-- The normalized dot product lies in `[-1, 1]` (Cauchy-Schwarz). -/
theorem div_norm_bounds (a b : List ℝ)
    (hna : linalg_norm a ≠ 0) (hnb : linalg_norm b ≠ 0) :
    -1 ≤ dot a b / (linalg_norm a * linalg_norm b) ∧
      dot a b / (linalg_norm a * linalg_norm b) ≤ 1 := by
  have hapos : 0 < linalg_norm a :=
    lt_of_le_of_ne (linalg_norm_nonneg a) (Ne.symm hna)
  have hbpos : 0 < linalg_norm b :=
    lt_of_le_of_ne (linalg_norm_nonneg b) (Ne.symm hnb)
  have hsq : (dot a b / (linalg_norm a * linalg_norm b)) ^ 2 ≤ 1 := by
    rw [div_pow, div_le_one (by positivity)]
    calc (dot a b) ^ 2 ≤ dot a a * dot b b := dot_sq_le a b
      _ = (linalg_norm a * linalg_norm b) ^ 2 := by
          rw [mul_pow, pow_two, pow_two, linalg_norm_mul_self, linalg_norm_mul_self]
  have habs : |dot a b / (linalg_norm a * linalg_norm b)| ≤ 1 :=
    (sq_le_one_iff_abs_le_one _).mp hsq
  exact abs_le.mp habs

/-- C1 (amended): the matcher's `_cosine_similarity` stays in `[-1, 1]` for
equal-dimension vectors of nonzero norm, but has no zero-norm guard: a
nonempty zero vector produces NaN (a float division by zero), not `0.0`.
The evaluator's inline similarity in `_calculate_sample_similarities` does
guard the degenerate case, returning exactly `0.0`, and also stays in
`[-1, 1]` on nonzero-norm inputs. -/
theorem matcher_cosine_similarity_behavior :
    (∀ a b : List ℝ, a.length = b.length →
      linalg_norm a ≠ 0 → linalg_norm b ≠ 0 →
      ∃ x, cosine_similarity a b = SimOutcome.val x ∧ -1 ≤ x ∧ x ≤ 1) ∧
    (∀ a b : List ℝ, a.length = b.length → a ≠ [] →
      (linalg_norm a = 0 ∨ linalg_norm b = 0) →
      cosine_similarity a b = SimOutcome.nan) ∧
    (∀ a b : List ℝ, a.length = b.length →
      linalg_norm a * linalg_norm b = 0 →
      sample_similarity a b = SimOutcome.val 0) ∧
    (∀ a b : List ℝ, a.length = b.length →
      linalg_norm a ≠ 0 → linalg_norm b ≠ 0 →
      ∃ x, sample_similarity a b = SimOutcome.val x ∧ -1 ≤ x ∧ x ≤ 1) := by
  refine ⟨?_, ?_, ?_, ?_⟩
  · intro a b h hna hnb
    exact ⟨_, cosine_similarity_of_nonzero a b h hna hnb,
      (div_norm_bounds a b hna hnb).1, (div_norm_bounds a b hna hnb).2⟩
  · intro a b h ha hz
    exact cosine_similarity_of_zero a b h ha hz
  · intro a b h hz
    unfold sample_similarity
    rw [if_neg (not_not_intro h), if_neg (not_not_intro hz)]
  · intro a b h hna hnb
    unfold sample_similarity
    rw [if_neg (not_not_intro h), if_pos (mul_ne_zero hna hnb)]
    exact ⟨_, rfl, (div_norm_bounds a b hna hnb).1, (div_norm_bounds a b hna hnb).2⟩

/-- C1 (counterexample): feeding the zero vector `[0.0]` against `[1.0]`,
the matcher's cosine similarity is NaN, not the claimed exact `0.0`. -/
theorem matcher_cosine_similarity_zero_vector_nan :
    cosine_similarity [(0 : ℝ)] [(1 : ℝ)] = SimOutcome.nan ∧
    SimOutcome.nan ≠ SimOutcome.val 0 := by
  constructor
  · apply cosine_similarity_of_zero
    · rfl
    · simp
    · left
      simp [linalg_norm, dot]
  · intro hcon
    cases hcon

/-- C1 (witness): a concrete nonzero pair gets a value in `[-1, 1]`, and a
concrete zero-vector pair gets exactly `0.0` from the evaluator's guarded
similarity. -/
theorem matcher_cosine_similarity_behavior_witness :
    (∃ x, cosine_similarity [(1 : ℝ), 0] [(0 : ℝ), 1] = SimOutcome.val x ∧
      -1 ≤ x ∧ x ≤ 1) ∧
    sample_similarity [(0 : ℝ)] [(1 : ℝ)] = SimOutcome.val 0 := by
  constructor
  · exact matcher_cosine_similarity_behavior.1 [(1 : ℝ), 0] [(0 : ℝ), 1] rfl
      (by simp [linalg_norm, dot]) (by simp [linalg_norm, dot])
  · exact matcher_cosine_similarity_behavior.2.2.1 [(0 : ℝ)] [(1 : ℝ)] rfl
      (by simp [linalg_norm, dot])

/-- C3: on vectors of unequal dimension the matcher's cosine similarity
raises (numpy's shape-mismatch `ValueError` propagates to the caller); it
never returns a float value. -/
theorem cosine_similarity_dimension_mismatch (a b : List ℝ)
    (h : a.length ≠ b.length) :
    cosine_similarity a b = SimOutcome.raises ∧
    ∀ x : ℝ, cosine_similarity a b ≠ SimOutcome.val x := by
  have hr : cosine_similarity a b = SimOutcome.raises := by
    unfold cosine_similarity
    rw [if_pos h]
  refine ⟨hr, fun x hx => ?_⟩
  rw [hr] at hx
  cases hx

/-- C3 (witness): a 384-dimensional vector against a 768-dimensional one. -/
theorem cosine_similarity_dimension_mismatch_witness :
    (List.replicate 384 (1 : ℝ)).length ≠ (List.replicate 768 (1 : ℝ)).length ∧
    cosine_similarity (List.replicate 384 (1 : ℝ)) (List.replicate 768 (1 : ℝ))
      = SimOutcome.raises := by
  have h : (List.replicate 384 (1 : ℝ)).length
      ≠ (List.replicate 768 (1 : ℝ)).length := by
    rw [List.length_replicate, List.length_replicate]
    omega
  exact ⟨h, (cosine_similarity_dimension_mismatch _ _ h).1⟩

/-! ### Embedding client (src/soupboss/embeddings.py) -/

/-- Model of `OllamaEmbeddingClient`.  `model_ready` is the (cached) outcome
of `ensure_model_ready`, fixed for the client's lifetime; `embed` is the
remote `client.embeddings(model=..., prompt=cleaned_text)` call on the
cleaned text, returning `none` when the call errors or returns an
empty/missing embedding. -/
structure OllamaEmbeddingClient (V : Type) where
  model_ready : Bool
  embed : String → Option V

/-- Python `text.split()` — split on whitespace runs, producing no empty
words — by structural recursion over the characters (`acc` holds the
current word reversed). -/
def pySplitWs : List Char → List Char → List String
  | [], acc => if acc = [] then [] else [String.mk acc.reverse]
  | c :: cs, acc =>
      if c.isWhitespace then
        if acc = [] then pySplitWs cs []
        else String.mk acc.reverse :: pySplitWs cs []
      else pySplitWs cs (c :: acc)

/-- Python `s.strip()`: drop leading and trailing whitespace. -/
def pyStrip (s : String) : String :=
  String.mk
    (((s.toList.dropWhile Char.isWhitespace).reverse.dropWhile Char.isWhitespace).reverse)

/-- Model of `OllamaEmbeddingClient._clean_text` (lines 138-153): collapse
whitespace runs via `" ".join(text.split())`, then truncate to 30000
characters with a `"..."` marker. -/
def _clean_text (text : String) : String :=
  let cleaned := String.intercalate " " (pySplitWs text.toList [])
  if cleaned.length > 30000 then cleaned.take 30000 ++ "..." else cleaned

/-- Model of `OllamaEmbeddingClient.generate_embedding` (lines 89-113):
`none` when the model is not ready, the cleaned text is empty after
stripping, or the remote call fails. -/
def generate_embedding {V : Type} (c : OllamaEmbeddingClient V)
    (text : String) : Option V :=
  if c.model_ready = false then none
  else
    let cleaned_text := _clean_text text
    if pyStrip cleaned_text = "" then none
    else c.embed cleaned_text

/-- Model of `OllamaEmbeddingClient.generate_embeddings_batch`
(lines 115-136): `[None] * len(texts)` when the model is not ready,
otherwise one sequential `generate_embedding` call per text (the
`show_progress` branches of the source run the same loop). -/
def generate_embeddings_batch {V : Type} (c : OllamaEmbeddingClient V)
    (texts : List String) : List (Option V) :=
  if c.model_ready = false then List.replicate texts.length none
  else texts.map (fun text => generate_embedding c text)

/-- C4: the batch result has exactly one slot per input text, and slot `i`
is `generate_embedding` of text `i`; a `none` at one slot never aborts or
shifts the others. -/
theorem generate_embeddings_batch_spec {V : Type} (c : OllamaEmbeddingClient V)
    (texts : List String) :
    generate_embeddings_batch c texts = texts.map (generate_embedding c) ∧
    (generate_embeddings_batch c texts).length = texts.length := by
  have hmap : generate_embeddings_batch c texts = texts.map (generate_embedding c) := by
    unfold generate_embeddings_batch
    by_cases h : c.model_ready = false
    · rw [if_pos h]
      have : texts.map (generate_embedding c) = texts.map (fun _ => none) := by
        apply List.map_congr_left
        intro t _
        unfold generate_embedding
        rw [if_pos h]
      rw [this, List.map_const']
    · rw [if_neg h]
  exact ⟨hmap, by rw [hmap, List.length_map]⟩

/-! ### Database model (src/soupboss/db.py)

Tables are lists of rows.  Embedding tables are restricted to the
configured `embedding_model` (every query and write in the verified code
paths filters on one fixed model name), so a row is an
`(entity_id, vector)` pair; the `UNIQUE (entity_id, embedding_model)`
constraint with `INSERT OR REPLACE` becomes a filter-and-append upsert. -/

/-- A row of the `jobs` table joined with its company name
(`jobs.company_id` is a NOT NULL foreign key, and every consumer in the
verified paths joins `companies` for the name). -/
structure JobRow where
  id : ℕ
  title : String
  department : Option String
  location : Option String
  content_html : Option String
  content_text : Option String
  company_name : String
deriving DecidableEq

/-- A row of the `resumes` table (fields the verified paths read). -/
structure ResumeRow where
  id : ℕ
  name : String
  content_text : Option String
deriving DecidableEq

/-- A row of the `match_results` table for the configured model. -/
structure MatchRow where
  resume_id : ℕ
  job_id : ℕ
  similarity_score : ℚ
  adjusted_score : Option ℚ
deriving DecidableEq

/-- The database state visible to the verified code paths, for one
configured embedding model.  `jobs` and `resumes` are kept in the order
the SQL queries return them. -/
structure SoupBossDB (V : Type) where
  jobs : List JobRow
  resumes : List ResumeRow
  job_embeddings : List (ℕ × V)
  resume_embeddings : List (ℕ × V)
  match_results : List MatchRow

/-- `SELECT embedding FROM ... WHERE entity_id = ? AND embedding_model = ?`. -/
def lookupEmb {V : Type} (rows : List (ℕ × V)) (k : ℕ) : Option V :=
  (rows.find? (fun p => p.1 == k)).map (fun p => p.2)

/-- `INSERT OR REPLACE` under `UNIQUE (entity_id, embedding_model)`: the
conflicting row is deleted and the new row inserted. -/
def upsertEmb {V : Type} (rows : List (ℕ × V)) (k : ℕ) (v : V) : List (ℕ × V) :=
  rows.filter (fun p => !(p.1 == k)) ++ [(k, v)]

/-- Model of `SoupBossDB.save_job_embedding` (db.py lines 287-295). -/
def save_job_embedding {V : Type} (db : SoupBossDB V) (job_id : ℕ) (embedding : V) :
    SoupBossDB V :=
  { db with job_embeddings := upsertEmb db.job_embeddings job_id embedding }

/-- Model of `SoupBossDB.get_job_embedding` (db.py lines 307-317). -/
def get_job_embedding {V : Type} (db : SoupBossDB V) (job_id : ℕ) : Option V :=
  lookupEmb db.job_embeddings job_id

/-- Model of `SoupBossDB.save_match_result` (db.py lines 332-341):
`INSERT OR REPLACE` keyed by `(resume_id, job_id, embedding_model)` —
the whole row is replaced, including `adjusted_score` (default `None`). -/
def save_match_result {V : Type} (db : SoupBossDB V) (resume_id job_id : ℕ)
    (similarity_score : ℚ) (adjusted_score : Option ℚ) : SoupBossDB V :=
  let kept := db.match_results.filter
    (fun r => !(r.resume_id == resume_id && r.job_id == job_id))
  { db with match_results :=
      kept ++ [⟨resume_id, job_id, similarity_score, adjusted_score⟩] }

/-- Row of `match_results` for a given `(resume_id, job_id)` pair and the
configured model (the `UNIQUE` key). -/
def get_match_row {V : Type} (db : SoupBossDB V) (resume_id job_id : ℕ) :
    Option MatchRow :=
  db.match_results.find?
    (fun r => r.resume_id == resume_id && r.job_id == job_id)

theorem lookupEmb_upsertEmb_self {V : Type} (rows : List (ℕ × V)) (k : ℕ) (v : V) :
    lookupEmb (upsertEmb rows k v) k = some v := by
  unfold lookupEmb upsertEmb
  rw [List.find?_append]
  have h1 : (rows.filter (fun p => !(p.1 == k))).find? (fun p => p.1 == k) = none := by
    rw [List.find?_eq_none]
    intro x hx
    have := List.of_mem_filter hx
    simp at this ⊢
    exact this
  rw [h1]
  simp

theorem lookupEmb_upsertEmb_other {V : Type} (rows : List (ℕ × V)) (k j : ℕ) (v : V)
    (h : j ≠ k) : lookupEmb (upsertEmb rows k v) j = lookupEmb rows j := by
  unfold lookupEmb upsertEmb
  rw [List.find?_append]
  have h2 : List.find? (fun p => p.1 == j) [(k, v)] = none := by
    rw [List.find?_eq_none]
    intro x hx
    simp at hx
    subst hx
    simp
    exact fun hkj => h hkj.symm
  rw [h2]
  have h3 : (rows.filter (fun p => !(p.1 == k))).find? (fun p => p.1 == j)
      = rows.find? (fun p => p.1 == j) := by
    induction rows with
    | nil => rfl
    | cons a as ih =>
        by_cases hak : a.1 = k
        · rw [List.filter_cons_of_neg (by simp [hak])]
          rw [List.find?_cons_of_neg _ (by simp [hak, Ne.symm h])]
          exact ih
        · rw [List.filter_cons_of_pos (by simp [hak])]
          by_cases haj : a.1 = j
          · rw [List.find?_cons_of_pos _ (by simp [haj]),
              List.find?_cons_of_pos _ (by simp [haj])]
          · rw [List.find?_cons_of_neg _ (by simp [haj]),
              List.find?_cons_of_neg _ (by simp [haj])]
            exact ih
  rw [h3]
  cases rows.find? (fun p => p.1 == j) <;> rfl

theorem lookupEmb_isSome_upsertEmb {V : Type} (rows : List (ℕ × V)) (k j : ℕ) (v : V)
    (h : (lookupEmb rows j).isSome) : (lookupEmb (upsertEmb rows k v) j).isSome := by
  by_cases hjk : j = k
  · subst hjk
    rw [lookupEmb_upsertEmb_self]
    rfl
  · rw [lookupEmb_upsertEmb_other rows k j v hjk]
    exact h

/-! ### Embedding pipeline (src/soupboss/matching.py, class EmbeddingPipeline) -/

/-- Python truthiness of an optional string: `None` and `""` are falsy. -/
def truthyStr : Option String → Bool
  | none => false
  | some s => !(s == "")

/-- The body text chosen by `_prepare_job_text`:
`job.get('content_text', '') or job.get('content_html', '')` —
`content_text` when truthy, else `content_html` (possibly `None`). -/
def contentOf (job : JobRow) : Option String :=
  if truthyStr job.content_text then job.content_text else job.content_html

/-- Model of `EmbeddingPipeline._prepare_job_text` (matching.py lines
189-214): build the paragraph list in order — title line plus bare title
repeated (when truthy), department and location lines when truthy, then the
body truncated at 8000 characters with a `"..."` marker — and join with
blank lines. -/
def _prepare_job_text (job : JobRow) : String :=
  let parts : List String :=
    (if job.title ≠ "" then ["Job Title: " ++ job.title, job.title] else [])
    ++ (match job.department with
        | some d => if d ≠ "" then ["Department: " ++ d] else []
        | none => [])
    ++ (match job.location with
        | some l => if l ≠ "" then ["Location: " ++ l] else []
        | none => [])
    ++ (match contentOf job with
        | some content =>
            if content ≠ "" then
              [if content.length > 8000 then content.take 8000 ++ "..." else content]
            else []
        | none => [])
  String.intercalate "\n\n" parts

/-- Model of `EmbeddingPipeline._has_job_embedding` (lines 216-218). -/
def _has_job_embedding {V : Type} (db : SoupBossDB V) (job_id : ℕ) : Bool :=
  (get_job_embedding db job_id).isSome

/-- The job rows `generate_job_embeddings` starts from (lines 64-74):
one `SELECT * FROM jobs WHERE id = ?` per given id (missing ids silently
dropped, result in the ids' order), or `db.get_jobs()` when `job_ids` is
`None` or empty (Python truthiness of the list). -/
def selectJobs {V : Type} (db : SoupBossDB V) (job_ids : Option (List ℕ)) :
    List JobRow :=
  match job_ids with
  | some ids =>
      if ids ≠ [] then ids.filterMap (fun i => db.jobs.find? (fun j => j.id == i))
      else db.jobs
  | none => db.jobs

/-- One iteration of the `generate_job_embeddings` loop (lines 97-117):
embed the prepared text via `generate_embeddings_batch([job_text])`; on a
vector, save it and count it; a `None` slot (or an empty batch, which the
source turns into a raised `ValueError`) is caught by the `except`, logged,
and skipped without counting. -/
def processJob {V : Type} (client : OllamaEmbeddingClient V)
    (st : ℕ × SoupBossDB V) (job : JobRow) : ℕ × SoupBossDB V :=
  let job_text := _prepare_job_text job
  match (generate_embeddings_batch client [job_text]).head? with
  | some (some embedding) => (st.1 + 1, save_job_embedding st.2 job.id embedding)
  | _ => st

/-- Model of `EmbeddingPipeline.generate_job_embeddings` (lines 53-120):
select the job rows, keep those needing work (`force_regenerate` or no
stored embedding for the configured model), and run the loop; returns the
count of embeddings written together with the updated store. -/
def generate_job_embeddings {V : Type} (client : OllamaEmbeddingClient V)
    (db : SoupBossDB V) (job_ids : Option (List ℕ)) (force_regenerate : Bool) :
    ℕ × SoupBossDB V :=
  let jobs := selectJobs db job_ids
  if jobs = [] then (0, db)
  else
    let jobs_to_process :=
      jobs.filter (fun job => force_regenerate || !(_has_job_embedding db job.id))
    if jobs_to_process = [] then (0, db)
    else jobs_to_process.foldl (processJob client) (0, db)

/-- Coverage statistics for one entity kind, as returned by
`get_embedding_stats`. -/
structure CoverageStats where
  total : ℕ
  with_embeddings : ℕ
  coverage_percent : ℚ
deriving DecidableEq

/-- The two halves of the `get_embedding_stats` dictionary. -/
structure EmbeddingStats where
  jobs : CoverageStats
  resumes : CoverageStats
deriving DecidableEq

/-- Python's `round` on an exact value: round half to even. -/
def pyRound (x : ℚ) : ℤ :=
  let f := Int.floor x
  let r := x - (f : ℚ)
  if r < 1/2 then f
  else if 1/2 < r then f + 1
  else if f % 2 = 0 then f else f + 1

/-- Python's `round(x, 1)`: one decimal place, half to even. -/
def round1 (x : ℚ) : ℚ := (pyRound (10 * x) : ℚ) / 10

/-- Model of `EmbeddingPipeline.get_embedding_stats` (lines 224-260):
`total` is `SELECT COUNT(*)` over ALL rows of the entity table (no
content filter), `with_embeddings` counts the embedding rows for the
configured model, and coverage is
`round(with_embeddings / max(total, 1) * 100, 1)`. -/
def get_embedding_stats {V : Type} (db : SoupBossDB V) : EmbeddingStats :=
  let total_jobs := db.jobs.length
  let jobs_with_embeddings := db.job_embeddings.length
  let total_resumes := db.resumes.length
  let resumes_with_embeddings := db.resume_embeddings.length
  ⟨⟨total_jobs, jobs_with_embeddings,
      round1 ((jobs_with_embeddings : ℚ) / ((max total_jobs 1 : ℕ) : ℚ) * 100)⟩,
   ⟨total_resumes, resumes_with_embeddings,
      round1 ((resumes_with_embeddings : ℚ) / ((max total_resumes 1 : ℕ) : ℚ) * 100)⟩⟩

theorem generate_embeddings_batch_singleton {V : Type}
    (client : OllamaEmbeddingClient V) (t : String) :
    (generate_embeddings_batch client [t]).head?
      = some (generate_embedding client t) := by
  unfold generate_embeddings_batch
  by_cases h : client.model_ready = false
  · rw [if_pos h]
    unfold generate_embedding
    rw [if_pos h]
    rfl
  · rw [if_neg h]
    rfl

theorem processJob_eq {V : Type} (client : OllamaEmbeddingClient V)
    (st : ℕ × SoupBossDB V) (job : JobRow) :
    processJob client st job
      = match generate_embedding client (_prepare_job_text job) with
        | some embedding => (st.1 + 1, save_job_embedding st.2 job.id embedding)
        | none => st := by
  simp only [processJob]
  rw [generate_embeddings_batch_singleton]
  cases generate_embedding client (_prepare_job_text job) <;> rfl

theorem processJob_frame {V : Type} (client : OllamaEmbeddingClient V)
    (st : ℕ × SoupBossDB V) (job : JobRow) :
    (processJob client st job).2.jobs = st.2.jobs ∧
    (processJob client st job).2.resumes = st.2.resumes ∧
    (processJob client st job).2.resume_embeddings = st.2.resume_embeddings ∧
    (processJob client st job).2.match_results = st.2.match_results := by
  rw [processJob_eq]
  cases generate_embedding client (_prepare_job_text job) <;> exact ⟨rfl, rfl, rfl, rfl⟩

theorem foldl_processJob_frame {V : Type} (client : OllamaEmbeddingClient V) :
    ∀ (todo : List JobRow) (st : ℕ × SoupBossDB V),
      (todo.foldl (processJob client) st).2.jobs = st.2.jobs ∧
      (todo.foldl (processJob client) st).2.resumes = st.2.resumes ∧
      (todo.foldl (processJob client) st).2.resume_embeddings = st.2.resume_embeddings ∧
      (todo.foldl (processJob client) st).2.match_results = st.2.match_results
  | [], st => ⟨rfl, rfl, rfl, rfl⟩
  | a :: as, st => by
      rw [List.foldl_cons]
      have h1 := foldl_processJob_frame client as (processJob client st a)
      have h2 := processJob_frame client st a
      exact ⟨h1.1.trans h2.1, h1.2.1.trans h2.2.1,
        h1.2.2.1.trans h2.2.2.1, h1.2.2.2.trans h2.2.2.2⟩

theorem processJob_mono {V : Type} (client : OllamaEmbeddingClient V)
    (st : ℕ × SoupBossDB V) (job : JobRow) (jid : ℕ)
    (h : _has_job_embedding st.2 jid = true) :
    _has_job_embedding (processJob client st job).2 jid = true := by
  rw [processJob_eq]
  cases generate_embedding client (_prepare_job_text job) with
  | none => exact h
  | some e =>
      unfold _has_job_embedding get_job_embedding at h ⊢
      exact lookupEmb_isSome_upsertEmb _ _ _ _ h

theorem foldl_processJob_mono {V : Type} (client : OllamaEmbeddingClient V) :
    ∀ (todo : List JobRow) (st : ℕ × SoupBossDB V) (jid : ℕ),
      _has_job_embedding st.2 jid = true →
      _has_job_embedding (todo.foldl (processJob client) st).2 jid = true
  | [], _, _, h => h
  | a :: as, st, jid, h => by
      rw [List.foldl_cons]
      exact foldl_processJob_mono client as _ jid (processJob_mono client st a jid h)

theorem foldl_processJob_covers {V : Type} (client : OllamaEmbeddingClient V) :
    ∀ (todo : List JobRow) (st : ℕ × SoupBossDB V) (job : JobRow),
      job ∈ todo →
      (generate_embedding client (_prepare_job_text job)).isSome = true →
      _has_job_embedding (todo.foldl (processJob client) st).2 job.id = true
  | [], _, _, h, _ => absurd h (List.not_mem_nil _)
  | a :: as, st, job, hmem, hsome => by
      rw [List.foldl_cons]
      rcases List.mem_cons.mp hmem with heq | hmem'
      · subst heq
        apply foldl_processJob_mono
        rw [processJob_eq]
        cases hg : generate_embedding client (_prepare_job_text job) with
        | none => rw [hg] at hsome; cases hsome
        | some e =>
            unfold _has_job_embedding get_job_embedding
            rw [show (save_job_embedding st.2 job.id e).job_embeddings
                = upsertEmb st.2.job_embeddings job.id e from rfl]
            rw [lookupEmb_upsertEmb_self]
            rfl
      · exact foldl_processJob_covers client as _ job hmem' hsome

theorem foldl_processJob_noop {V : Type} (client : OllamaEmbeddingClient V) :
    ∀ (todo : List JobRow) (st : ℕ × SoupBossDB V),
      (∀ job ∈ todo, generate_embedding client (_prepare_job_text job) = none) →
      todo.foldl (processJob client) st = st
  | [], _, _ => rfl
  | a :: as, st, h => by
      rw [List.foldl_cons]
      have ha : processJob client st a = st := by
        rw [processJob_eq, h a (List.mem_cons_self a as)]
      rw [ha]
      exact foldl_processJob_noop client as st (fun j hj => h j (List.mem_cons_of_mem a hj))

theorem foldl_processJob_count {V : Type} (client : OllamaEmbeddingClient V) :
    ∀ (todo : List JobRow) (c : ℕ) (d : SoupBossDB V),
      (todo.foldl (processJob client) (c, d)).1
        = c + todo.countP
            (fun job => (generate_embedding client (_prepare_job_text job)).isSome)
  | [], c, d => by simp
  | a :: as, c, d => by
      rw [List.foldl_cons, List.countP_cons, processJob_eq]
      cases hg : generate_embedding client (_prepare_job_text a) with
      | none =>
          rw [foldl_processJob_count client as c d]
          simp [hg]
      | some e =>
          rw [foldl_processJob_count client as (c + 1) (save_job_embedding d a.id e)]
          simp [hg]
          omega

theorem selectJobs_eq_of_jobs_eq {V W : Type} (db : SoupBossDB V)
    (db' : SoupBossDB W) (h : db'.jobs = db.jobs) (ids : Option (List ℕ)) :
    selectJobs db' ids = selectJobs db ids := by
  unfold selectJobs
  cases ids with
  | none => exact h
  | some l => rw [h]

/-- Frame of `generate_job_embeddings`: only the job-embedding table is
written; jobs, resumes, resume embeddings and match results are untouched. -/
theorem generate_job_embeddings_frame {V : Type}
    (client : OllamaEmbeddingClient V) (db : SoupBossDB V)
    (job_ids : Option (List ℕ)) (force : Bool) :
    (generate_job_embeddings client db job_ids force).2.jobs = db.jobs ∧
    (generate_job_embeddings client db job_ids force).2.resumes = db.resumes ∧
    (generate_job_embeddings client db job_ids force).2.resume_embeddings
      = db.resume_embeddings ∧
    (generate_job_embeddings client db job_ids force).2.match_results
      = db.match_results := by
  dsimp only [generate_job_embeddings]
  by_cases h1 : selectJobs db job_ids = []
  · rw [if_pos h1]
    exact ⟨rfl, rfl, rfl, rfl⟩
  · rw [if_neg h1]
    by_cases h2 : (selectJobs db job_ids).filter
        (fun job => force || !(_has_job_embedding db job.id)) = []
    · rw [if_pos h2]
      exact ⟨rfl, rfl, rfl, rfl⟩
    · rw [if_neg h2]
      exact foldl_processJob_frame client _ (0, db)

/-- C5: running `generate_job_embeddings` a second time, without `force`,
on the unchanged store returns a count of `0` and leaves the store exactly
as the first run left it (the second run writes nothing): jobs already
embedded are filtered out, and jobs whose generation failed fail again
identically. -/
theorem generate_job_embeddings_idempotent {V : Type}
    (client : OllamaEmbeddingClient V) (db : SoupBossDB V)
    (job_ids : Option (List ℕ)) :
    generate_job_embeddings client
        (generate_job_embeddings client db job_ids false).2 job_ids false
      = (0, (generate_job_embeddings client db job_ids false).2) := by
  have hframe := generate_job_embeddings_frame client db job_ids false
  have hsel : selectJobs (generate_job_embeddings client db job_ids false).2 job_ids
      = selectJobs db job_ids :=
    selectJobs_eq_of_jobs_eq db _ hframe.1 job_ids
  by_cases h1 : selectJobs db job_ids = []
  · have hfst : generate_job_embeddings client db job_ids false = (0, db) := by
      dsimp only [generate_job_embeddings]
      rw [if_pos h1]
    rw [hfst]
    dsimp only [generate_job_embeddings]
    rw [show selectJobs (0, db).2 job_ids = selectJobs db job_ids from rfl, if_pos h1]
  · by_cases h2 : (selectJobs db job_ids).filter
        (fun job => false || !(_has_job_embedding db job.id)) = []
    · have hfst : generate_job_embeddings client db job_ids false = (0, db) := by
        dsimp only [generate_job_embeddings]
        rw [if_neg h1, if_pos h2]
      rw [hfst]
      dsimp only [generate_job_embeddings]
      rw [show selectJobs (0, db).2 job_ids = selectJobs db job_ids from rfl,
        if_neg h1, if_pos h2]
    · have hfst : generate_job_embeddings client db job_ids false
          = ((selectJobs db job_ids).filter
              (fun job => false || !(_has_job_embedding db job.id))).foldl
              (processJob client) (0, db) := by
        dsimp only [generate_job_embeddings]
        rw [if_neg h1, if_neg h2]
      set todo1 := (selectJobs db job_ids).filter
        (fun job => false || !(_has_job_embedding db job.id)) with htodo1
      set db1 := (generate_job_embeddings client db job_ids false).2 with hdb1
      have hdb1' : db1 = (todo1.foldl (processJob client) (0, db)).2 := by
        rw [hdb1, hfst]
      -- every job still lacking an embedding after the first run fails again
      have hkey : ∀ job ∈ (selectJobs db job_ids).filter
          (fun job => false || !(_has_job_embedding db1 job.id)),
          generate_embedding client (_prepare_job_text job) = none := by
        intro job hmem
        have hmem' := List.mem_filter.mp hmem
        have hnot1 : _has_job_embedding db1 job.id = false := by
          have := hmem'.2
          simp only [Bool.false_or, Bool.not_eq_true'] at this
          exact this
        cases hg : generate_embedding client (_prepare_job_text job) with
        | none => rfl
        | some e =>
            exfalso
            by_cases hhad : _has_job_embedding db job.id = true
            · have : _has_job_embedding db1 job.id = true := by
                rw [hdb1']
                exact foldl_processJob_mono client todo1 (0, db) job.id hhad
              rw [hnot1] at this
              cases this
            · have hintodo : job ∈ todo1 := by
                rw [htodo1]
                refine List.mem_filter.mpr ⟨hmem'.1, ?_⟩
                simp only [Bool.false_or, Bool.not_eq_true']
                cases hb : _has_job_embedding db job.id with
                | false => rfl
                | true => exact absurd hb hhad
              have : _has_job_embedding db1 job.id = true := by
                rw [hdb1']
                exact foldl_processJob_covers client todo1 (0, db) job hintodo
                  (by rw [hg]; rfl)
              rw [hnot1] at this
              cases this
      -- second call
      dsimp only [generate_job_embeddings]
      rw [hsel, if_neg h1]
      by_cases h3 : (selectJobs db job_ids).filter
          (fun job => false || !(_has_job_embedding db1 job.id)) = []
      · rw [if_pos h3]
      · rw [if_neg h3]
        exact foldl_processJob_noop client _ (0, db1) hkey

/-- C6 (amended): `generate_job_embeddings` takes as candidates ALL selected
jobs regardless of `content_text` nullity (the pipeline has no non-null
content filter; only the evaluator's `generate_embeddings_for_model`
filters on `content_text IS NOT NULL`); among the jobs needing work it
returns exactly the number of embeddings actually written — one per
successful generation, `None` results skipped and not counted — and writes
nothing outside the job-embedding table. -/
theorem generate_job_embeddings_count_spec {V : Type}
    (client : OllamaEmbeddingClient V) (db : SoupBossDB V)
    (job_ids : Option (List ℕ)) (force : Bool) :
    (generate_job_embeddings client db job_ids force).1
      = ((selectJobs db job_ids).filter
          (fun job => force || !(_has_job_embedding db job.id))).countP
          (fun job => (generate_embedding client (_prepare_job_text job)).isSome) ∧
    (generate_job_embeddings client db job_ids force).2.jobs = db.jobs ∧
    (generate_job_embeddings client db job_ids force).2.match_results
      = db.match_results := by
  refine ⟨?_, (generate_job_embeddings_frame client db job_ids force).1,
    (generate_job_embeddings_frame client db job_ids force).2.2.2⟩
  dsimp only [generate_job_embeddings]
  by_cases h1 : selectJobs db job_ids = []
  · rw [if_pos h1, h1]
    rfl
  · rw [if_neg h1]
    by_cases h2 : (selectJobs db job_ids).filter
        (fun job => force || !(_has_job_embedding db job.id)) = []
    · rw [if_pos h2, h2]
      rfl
    · rw [if_neg h2]
      exact (foldl_processJob_count client _ 0 db).trans (Nat.zero_add _)

/-- A job whose `content_text` and `content_html` are both NULL. -/
def jobNullContent : JobRow := ⟨7, "Title", none, none, none, none, "acme"⟩

/-- A store holding only the null-content job, with no embeddings yet. -/
def dbNullContent : SoupBossDB ℕ := ⟨[jobNullContent], [], [], [], []⟩

/-- A ready client whose embedding service always returns a vector. -/
def clientConst : OllamaEmbeddingClient ℕ := ⟨true, fun _ => some 1⟩

/-- C6 (counterexample): the store's only job has NULL content, yet
`generate_job_embeddings` still embeds it (count 1, a row written) — the
claimed non-null `content_text` candidate filter does not exist in the
pipeline. -/
theorem generate_job_embeddings_embeds_null_content :
    dbNullContent.jobs.filter (fun j => j.content_text.isSome) = [] ∧
    (generate_job_embeddings clientConst dbNullContent none false).1 = 1 ∧
    get_job_embedding
      (generate_job_embeddings clientConst dbNullContent none false).2 7
      = some 1 := by
  decide

/-- C7: for a job record with a truthy title and a nonempty chosen body
(`content_text` preferred, `content_html` fallback), the embedding text is
the blank-line-separated concatenation, in order, of the `Job Title:` line,
the bare title repeated, the `Department:` line if present, the
`Location:` line if present, and the body truncated to 8000 characters
with a `"..."` marker when cut. -/
theorem prepare_job_text_spec (job : JobRow) (ht : job.title ≠ "")
    (content : String) (hc : contentOf job = some content)
    (hcne : content ≠ "") :
    _prepare_job_text job
      = String.intercalate "\n\n"
          (["Job Title: " ++ job.title, job.title]
            ++ (match job.department with
                | some d => if d ≠ "" then ["Department: " ++ d] else []
                | none => [])
            ++ (match job.location with
                | some l => if l ≠ "" then ["Location: " ++ l] else []
                | none => [])
            ++ [if content.length > 8000 then content.take 8000 ++ "..." else content]) := by
  dsimp only [_prepare_job_text]
  rw [if_pos ht]
  simp only [hc]
  rw [if_pos hcne]

/-- A concrete job with title, department, no location, and a short body. -/
def jobWitness : JobRow := ⟨3, "Engineer", some "Eng", none, none, some "body", "acme"⟩

/-- C7 (witness): the concrete job's embedding text, via the theorem. -/
theorem prepare_job_text_spec_witness :
    _prepare_job_text jobWitness
      = "Job Title: Engineer\n\nEngineer\n\nDepartment: Eng\n\nbody" := by
  rw [prepare_job_text_spec jobWitness (by decide) "body" (by decide) (by decide)]
  decide

/-- Two jobs, one with content and one with NULL content; only the first
is embedded. -/
def dbHalf : SoupBossDB Unit :=
  ⟨[⟨1, "a", none, none, none, some "text", "c"⟩,
    ⟨2, "b", none, none, none, none, "c"⟩],
   [], [(1, ())], [], []⟩

/-- C8 (counterexample): with one embedded job with content plus one
null-content job, the implementation reports `50.0` — `total` counts ALL
job rows — while the claimed non-null-content denominator would give
`100.0`. -/
theorem get_embedding_stats_counts_all_rows :
    (get_embedding_stats dbHalf).jobs.coverage_percent = 50 ∧
    round1 ((dbHalf.job_embeddings.length : ℚ)
        / ((max (dbHalf.jobs.filter (fun j => j.content_text.isSome)).length 1 : ℕ) : ℚ)
        * 100) = 100 ∧
    (50 : ℚ) ≠ 100 := by
  refine ⟨?_, ?_, by norm_num⟩
  · show round1 ((1 : ℚ) / ((max 2 1 : ℕ) : ℚ) * 100) = 50
    norm_num [round1, pyRound]
  · show round1 ((1 : ℚ) / ((max 1 1 : ℕ) : ℚ) * 100) = 100
    norm_num [round1, pyRound]

/-- Ten jobs, all with content, four of them embedded. -/
def db10 : SoupBossDB Unit :=
  ⟨(List.range 10).map (fun i => ⟨i + 1, "t", none, none, none, some "c", "co"⟩),
   [], (List.range 4).map (fun i => (i + 1, ())), [], []⟩

/-- C8 (amended): `coverage_percent = with_embeddings / max(total, 1) * 100`
rounded to one decimal, where `total` counts ALL rows of the entity table
(null-content rows included); with 10 jobs total (all with content) and 4
embedded, the result is exactly `40.0`. -/
theorem get_embedding_stats_coverage :
    (∀ (V : Type) (db : SoupBossDB V),
      (get_embedding_stats db).jobs.total = db.jobs.length ∧
      (get_embedding_stats db).jobs.with_embeddings = db.job_embeddings.length ∧
      (get_embedding_stats db).jobs.coverage_percent
        = round1 ((db.job_embeddings.length : ℚ)
            / ((max db.jobs.length 1 : ℕ) : ℚ) * 100) ∧
      (get_embedding_stats db).resumes.coverage_percent
        = round1 ((db.resume_embeddings.length : ℚ)
            / ((max db.resumes.length 1 : ℕ) : ℚ) * 100)) ∧
    (db10.jobs.length = 10 ∧ (∀ j ∈ db10.jobs, j.content_text.isSome) ∧
      db10.job_embeddings.length = 4 ∧
      (get_embedding_stats db10).jobs.coverage_percent = 40) := by
  refine ⟨fun V db => ⟨rfl, rfl, rfl, rfl⟩, by simp [db10], ?_, by simp [db10], ?_⟩
  · intro j hj
    simp only [db10, List.mem_map] at hj
    obtain ⟨i, _, rfl⟩ := hj
    rfl
  · show round1 ((4 : ℚ) / ((max 10 1 : ℕ) : ℚ) * 100) = 40
    norm_num [round1, pyRound]

/-! ### Similarity matcher (src/soupboss/matching.py, class SimilarityMatcher) -/

/-- The `MatchResult` dataclass (matching.py lines 22-33). -/
structure MatchResult where
  resume_id : ℕ
  resume_name : String
  job_id : ℕ
  job_title : String
  company_name : String
  similarity_score : ℚ
  adjusted_score : Option ℚ
  job_department : Option String
  job_location : Option String
deriving DecidableEq

/-- Model of `SimilarityMatcher._get_resumes_with_embeddings` (lines
383-414): the resumes table — restricted to the given ids when the list is
truthy — inner-joined with the resume-embedding table for the configured
model.  A resume without a stored embedding simply produces no row. -/
def _get_resumes_with_embeddings {V : Type} (db : SoupBossDB V)
    (resume_ids : Option (List ℕ)) : List (ResumeRow × V) :=
  let selected : List ResumeRow :=
    match resume_ids with
    | some ids =>
        if ids ≠ [] then db.resumes.filter (fun r => ids.contains r.id)
        else db.resumes
    | none => db.resumes
  selected.filterMap
    (fun r => (lookupEmb db.resume_embeddings r.id).map (fun v => (r, v)))

/-- Model of `SimilarityMatcher._get_jobs_with_embeddings` (lines 416-449):
as for resumes, with the company join folded into `JobRow.company_name`. -/
def _get_jobs_with_embeddings {V : Type} (db : SoupBossDB V)
    (job_ids : Option (List ℕ)) : List (JobRow × V) :=
  let selected : List JobRow :=
    match job_ids with
    | some ids =>
        if ids ≠ [] then db.jobs.filter (fun j => ids.contains j.id)
        else db.jobs
    | none => db.jobs
  selected.filterMap
    (fun j => (lookupEmb db.job_embeddings j.id).map (fun v => (j, v)))

/-- The `MatchResult` built in the batch loop (lines 314-323):
`adjusted_score` is left at its default `None`. -/
def mkMatchResult (resume : ResumeRow) (job : JobRow) (similarity : ℚ) :
    MatchResult :=
  ⟨resume.id, resume.name, job.id, job.title, job.company_name,
    similarity, none, job.department, job.location⟩

/-- The descending-score comparison of
`results.sort(key=lambda x: x.similarity_score, reverse=True)`; CPython's
sort is stable, and `reverse=True` preserves stability. -/
def scoreGE (x y : MatchResult) : Bool :=
  decide (y.similarity_score ≤ x.similarity_score)

/-- The nested resume-outer, job-inner loop order of the batch
(lines 306-307). -/
def batch_pairs {V : Type} (db : SoupBossDB V)
    (resume_ids job_ids : Option (List ℕ)) :
    List ((ResumeRow × V) × (JobRow × V)) :=
  (_get_resumes_with_embeddings db resume_ids).flatMap
    (fun r => (_get_jobs_with_embeddings db job_ids).map (fun j => (r, j)))

/-- One iteration of the batch loop (lines 306-331): append the
`MatchResult` and, when `save_results`, upsert the persisted row as it is
computed (with `adjusted_score = None`). -/
def batchStep {V : Type} (simf : V → V → ℚ) (save_results : Bool)
    (acc : List MatchResult × SoupBossDB V)
    (rj : (ResumeRow × V) × (JobRow × V)) :
    List MatchResult × SoupBossDB V :=
  let similarity := simf rj.1.2 rj.2.2
  (acc.1 ++ [mkMatchResult rj.1.1 rj.2.1 similarity],
   if save_results then
     save_match_result acc.2 rj.1.1.id rj.2.1.id similarity none
   else acc.2)

/-- Model of `SimilarityMatcher.calculate_similarity_batch` (lines
273-338), parametrized by the similarity function `simf`, which stands for
`_cosine_similarity` on well-formed (equal-dimension, nonzero-norm)
embeddings: the batch logic only pairs, saves and sorts the scores, never
inspecting them.  Entities lacking an embedding were already dropped by
the SQL join; the final sort is stable descending by score. -/
def calculate_similarity_batch {V : Type} (simf : V → V → ℚ)
    (db : SoupBossDB V) (resume_ids job_ids : Option (List ℕ))
    (save_results : Bool) : List MatchResult × SoupBossDB V :=
  let resumes_data := _get_resumes_with_embeddings db resume_ids
  let jobs_data := _get_jobs_with_embeddings db job_ids
  if resumes_data.isEmpty then ([], db)
  else if jobs_data.isEmpty then ([], db)
  else
    let computed :=
      (batch_pairs db resume_ids job_ids).foldl (batchStep simf save_results) ([], db)
    (computed.1.mergeSort scoreGE, computed.2)

/-- The unsorted list of results in computation order. -/
def batch_computed {V : Type} (simf : V → V → ℚ) (db : SoupBossDB V)
    (resume_ids job_ids : Option (List ℕ)) : List MatchResult :=
  (batch_pairs db resume_ids job_ids).map
    (fun rj => mkMatchResult rj.1.1 rj.2.1 (simf rj.1.2 rj.2.2))

theorem foldl_batchStep_fst {V : Type} (simf : V → V → ℚ) (save : Bool) :
    ∀ (pairs : List ((ResumeRow × V) × (JobRow × V)))
      (acc : List MatchResult × SoupBossDB V),
      (pairs.foldl (batchStep simf save) acc).1
        = acc.1 ++ pairs.map
            (fun rj => mkMatchResult rj.1.1 rj.2.1 (simf rj.1.2 rj.2.2))
  | [], acc => by simp
  | p :: ps, acc => by
      rw [List.foldl_cons, foldl_batchStep_fst simf save ps, List.map_cons]
      show (acc.1 ++ [mkMatchResult p.1.1 p.2.1 (simf p.1.2 p.2.2)]) ++ _ = _
      rw [List.append_assoc]
      rfl

theorem foldl_batchStep_snd {V : Type} (simf : V → V → ℚ) :
    ∀ (pairs : List ((ResumeRow × V) × (JobRow × V)))
      (acc : List MatchResult × SoupBossDB V),
      (pairs.foldl (batchStep simf true) acc).2
        = pairs.foldl
            (fun d rj =>
              save_match_result d rj.1.1.id rj.2.1.id (simf rj.1.2 rj.2.2) none)
            acc.2
  | [], acc => rfl
  | p :: ps, acc => by
      rw [List.foldl_cons, List.foldl_cons]
      exact foldl_batchStep_snd simf ps _

theorem calculate_similarity_batch_fst {V : Type} (simf : V → V → ℚ)
    (db : SoupBossDB V) (resume_ids job_ids : Option (List ℕ)) (save : Bool) :
    (calculate_similarity_batch simf db resume_ids job_ids save).1
      = (batch_computed simf db resume_ids job_ids).mergeSort scoreGE := by
  dsimp only [calculate_similarity_batch]
  by_cases h1 : _get_resumes_with_embeddings db resume_ids = []
  · rw [if_pos (List.isEmpty_eq_true.mpr h1)]
    have hp : batch_pairs db resume_ids job_ids = [] := by
      unfold batch_pairs
      rw [h1]
      rfl
    unfold batch_computed
    rw [hp]
    simp
  · rw [if_neg (by simp [h1])]
    by_cases h2 : _get_jobs_with_embeddings (V := V) db job_ids = []
    · rw [if_pos (List.isEmpty_eq_true.mpr h2)]
      have hp : batch_pairs db resume_ids job_ids = [] := by
        unfold batch_pairs
        rw [h2]
        simp
      unfold batch_computed
      rw [hp]
      simp
    · rw [if_neg (by simp [h2])]
      rw [show ((batch_pairs db resume_ids job_ids).foldl (batchStep simf save) ([], db)).1
          = batch_computed simf db resume_ids job_ids from
        (foldl_batchStep_fst simf save _ ([], db)).trans (List.nil_append _)]

theorem scoreGE_trans (a b c : MatchResult)
    (hab : scoreGE a b) (hbc : scoreGE b c) : scoreGE a c := by
  simp only [scoreGE, decide_eq_true_eq] at hab hbc ⊢
  exact le_trans hbc hab

theorem scoreGE_total (a b : MatchResult) : scoreGE a b || scoreGE b a := by
  simp only [scoreGE, Bool.or_eq_true, decide_eq_true_eq]
  exact le_total b.similarity_score a.similarity_score

theorem length_batch_pairs {V : Type} (db : SoupBossDB V)
    (resume_ids job_ids : Option (List ℕ)) :
    (batch_pairs db resume_ids job_ids).length
      = (_get_resumes_with_embeddings db resume_ids).length
        * (_get_jobs_with_embeddings (V := V) db job_ids).length := by
  unfold batch_pairs
  generalize _get_resumes_with_embeddings db resume_ids = rs
  generalize _get_jobs_with_embeddings (V := V) db job_ids = js
  induction rs with
  | nil => simp
  | cons r rs ih =>
      rw [List.flatMap_cons, List.length_append, List.length_map, ih, List.length_cons]
      ring

theorem mem_resumes_with_embeddings {V : Type} (db : SoupBossDB V)
    (resume_ids : Option (List ℕ)) (r : ResumeRow) (v : V)
    (h : (r, v) ∈ _get_resumes_with_embeddings db resume_ids) :
    lookupEmb db.resume_embeddings r.id = some v := by
  unfold _get_resumes_with_embeddings at h
  obtain ⟨a, _, heq⟩ := List.mem_filterMap.mp h
  obtain ⟨w, hw, h2⟩ := Option.map_eq_some'.mp heq
  injection h2 with h3 h4
  subst h3
  subst h4
  exact hw

theorem mem_jobs_with_embeddings {V : Type} (db : SoupBossDB V)
    (job_ids : Option (List ℕ)) (j : JobRow) (v : V)
    (h : (j, v) ∈ _get_jobs_with_embeddings db job_ids) :
    lookupEmb db.job_embeddings j.id = some v := by
  unfold _get_jobs_with_embeddings at h
  obtain ⟨a, _, heq⟩ := List.mem_filterMap.mp h
  obtain ⟨w, hw, h2⟩ := Option.map_eq_some'.mp heq
  injection h2 with h3 h4
  subst h3
  subst h4
  exact hw

/-- C2: `calculate_similarity_batch` silently excludes entities lacking a
stored embedding for the configured model (every returned result's resume
and job have one — the SQL join drops the rest, no error is raised),
returns exactly one result per remaining resume-job pair (all pairs),
sorted by `similarity_score` descending, with tied scores keeping their
original computation order (stable sort; the model is a pure function of
the store, so repeated runs on the same input agree). -/
theorem calculate_similarity_batch_spec {V : Type} (simf : V → V → ℚ)
    (db : SoupBossDB V) (resume_ids job_ids : Option (List ℕ))
    (save_results : Bool) :
    (calculate_similarity_batch simf db resume_ids job_ids save_results).1.length
        = (_get_resumes_with_embeddings db resume_ids).length
          * (_get_jobs_with_embeddings (V := V) db job_ids).length ∧
    (calculate_similarity_batch simf db resume_ids job_ids save_results).1.Perm
        (batch_computed simf db resume_ids job_ids) ∧
    (calculate_similarity_batch simf db resume_ids job_ids save_results).1.Pairwise
        (fun x y => y.similarity_score ≤ x.similarity_score) ∧
    (∀ s : ℚ,
      (calculate_similarity_batch simf db resume_ids job_ids save_results).1.filter
          (fun m => decide (m.similarity_score = s))
        = (batch_computed simf db resume_ids job_ids).filter
            (fun m => decide (m.similarity_score = s))) ∧
    (∀ m ∈ (calculate_similarity_batch simf db resume_ids job_ids save_results).1,
      (lookupEmb db.resume_embeddings m.resume_id).isSome = true ∧
      (lookupEmb db.job_embeddings m.job_id).isSome = true) := by
  have hout := calculate_similarity_batch_fst simf db resume_ids job_ids save_results
  have hperm :
      (calculate_similarity_batch simf db resume_ids job_ids save_results).1.Perm
        (batch_computed simf db resume_ids job_ids) := by
    rw [hout]
    exact List.mergeSort_perm _ _
  refine ⟨?_, hperm, ?_, ?_, ?_⟩
  · rw [hperm.length_eq]
    unfold batch_computed
    rw [List.length_map]
    exact length_batch_pairs db resume_ids job_ids
  · rw [hout]
    exact (List.sorted_mergeSort scoreGE_trans scoreGE_total
      (batch_computed simf db resume_ids job_ids)).imp
      (fun h => of_decide_eq_true h)
  · intro s
    have hclass : ∀ x ∈ (batch_computed simf db resume_ids job_ids).filter
          (fun m => decide (m.similarity_score = s)),
        ∀ y ∈ (batch_computed simf db resume_ids job_ids).filter
          (fun m => decide (m.similarity_score = s)),
        scoreGE x y = true := by
      intro x hx y hy
      have hxs := List.of_mem_filter hx
      have hys := List.of_mem_filter hy
      simp only [decide_eq_true_eq] at hxs hys
      unfold scoreGE
      rw [decide_eq_true_eq, hxs, hys]
    have hsub : List.Sublist
        ((batch_computed simf db resume_ids job_ids).filter
          (fun m => decide (m.similarity_score = s)))
        (calculate_similarity_batch simf db resume_ids job_ids save_results).1 := by
      rw [hout]
      exact List.sublist_mergeSort scoreGE_trans scoreGE_total
        (List.pairwise_of_forall_mem_list hclass) (List.filter_sublist _)
    have hsub2 : List.Sublist
        ((batch_computed simf db resume_ids job_ids).filter
          (fun m => decide (m.similarity_score = s)))
        ((calculate_similarity_batch simf db resume_ids job_ids save_results).1.filter
          (fun m => decide (m.similarity_score = s))) := by
      have := hsub.filter (fun m => decide (m.similarity_score = s))
      rwa [List.filter_filter, show
        (fun m : MatchResult => decide (m.similarity_score = s)
            && decide (m.similarity_score = s))
          = fun m : MatchResult => decide (m.similarity_score = s) from
        funext (fun m => by cases h : decide (m.similarity_score = s) <;> simp [h])]
        at this
    have hlen : ((calculate_similarity_batch simf db resume_ids job_ids
          save_results).1.filter (fun m => decide (m.similarity_score = s))).length
        = ((batch_computed simf db resume_ids job_ids).filter
            (fun m => decide (m.similarity_score = s))).length :=
      (hperm.filter _).length_eq
    exact (hsub2.eq_of_length hlen.symm).symm
  · intro m hm
    have hm' : m ∈ batch_computed simf db resume_ids job_ids := hperm.mem_iff.mp hm
    unfold batch_computed at hm'
    obtain ⟨rj, hrj, rfl⟩ := List.mem_map.mp hm'
    obtain ⟨r, hr, hj'⟩ := List.mem_flatMap.mp hrj
    obtain ⟨j, hj, hrjeq⟩ := List.mem_map.mp hj'
    have h1 := mem_resumes_with_embeddings db resume_ids r.1 r.2 (by
      cases hrjeq
      simpa using hr)
    have h2 := mem_jobs_with_embeddings db job_ids j.1 j.2 (by simpa using hj)
    cases hrjeq
    constructor
    · show (lookupEmb db.resume_embeddings (mkMatchResult r.1 j.1 _).resume_id).isSome = true
      rw [show (mkMatchResult r.1 j.1 (simf r.2 j.2)).resume_id = r.1.id from rfl, h1]
      rfl
    · rw [show (mkMatchResult r.1 j.1 (simf r.2 j.2)).job_id = j.1.id from rfl, h2]
      rfl

theorem get_match_row_save_self {V : Type} (db : SoupBossDB V)
    (rid jid : ℕ) (s : ℚ) (adj : Option ℚ) :
    get_match_row (save_match_result db rid jid s adj) rid jid
      = some ⟨rid, jid, s, adj⟩ := by
  unfold get_match_row save_match_result
  rw [List.find?_append]
  have h1 : (db.match_results.filter
      (fun r => !(r.resume_id == rid && r.job_id == jid))).find?
      (fun r => r.resume_id == rid && r.job_id == jid) = none := by
    rw [List.find?_eq_none]
    intro x hx
    have h := List.of_mem_filter hx
    simp at h ⊢
    tauto
  rw [h1]
  rw [List.find?_cons_of_pos _ (by simp)]
  rfl

theorem get_match_row_save_other {V : Type} (db : SoupBossDB V)
    (rid jid rid' jid' : ℕ) (s : ℚ) (adj : Option ℚ)
    (h : ¬(rid' = rid ∧ jid' = jid)) :
    get_match_row (save_match_result db rid jid s adj) rid' jid'
      = get_match_row db rid' jid' := by
  unfold get_match_row save_match_result
  rw [List.find?_append]
  have h2 : List.find? (fun r => r.resume_id == rid' && r.job_id == jid')
      [(⟨rid, jid, s, adj⟩ : MatchRow)] = none := by
    rw [List.find?_eq_none]
    intro x hx
    simp at hx
    subst hx
    simp
    intro ha hb
    exact h ⟨ha.symm, hb.symm⟩
  rw [h2]
  have h3 : (db.match_results.filter
        (fun r => !(r.resume_id == rid && r.job_id == jid))).find?
        (fun r => r.resume_id == rid' && r.job_id == jid')
      = db.match_results.find?
        (fun r => r.resume_id == rid' && r.job_id == jid') := by
    induction db.match_results with
    | nil => rfl
    | cons a as ih =>
        by_cases hq : a.resume_id = rid' ∧ a.job_id = jid'
        · have hnotkey : ¬(a.resume_id = rid ∧ a.job_id = jid) := fun hk =>
            h ⟨hq.1.symm.trans hk.1, hq.2.symm.trans hk.2⟩
          have hkeep : (!(a.resume_id == rid && a.job_id == jid)) = true := by
            simp
            tauto
          rw [List.filter_cons_of_pos (by exact hkeep),
            List.find?_cons_of_pos _ (by simp [hq.1, hq.2]),
            List.find?_cons_of_pos _ (by simp [hq.1, hq.2])]
        · rw [List.find?_cons_of_neg _ (by simpa using hq)]
          by_cases hkeep : (!(a.resume_id == rid && a.job_id == jid)) = true
          · rw [List.filter_cons_of_pos (by exact hkeep),
              List.find?_cons_of_neg _ (by simpa using hq)]
            exact ih
          · rw [List.filter_cons_of_neg (by exact hkeep)]
            exact ih
  rw [h3]
  cases db.match_results.find? (fun r => r.resume_id == rid' && r.job_id == jid') <;> rfl

/-- Every save performed by the batch loop writes `adjusted_score = None`,
so once a key holds a none-adjusted row, it keeps holding one. -/
theorem batch_saves_adjusted_none {V : Type} (simf : V → V → ℚ) :
    ∀ (pairs : List ((ResumeRow × V) × (JobRow × V))) (d : SoupBossDB V)
      (rid jid : ℕ),
      (∃ row, get_match_row d rid jid = some row ∧ row.adjusted_score = none) →
      ∃ row,
        get_match_row
          (pairs.foldl
            (fun d rj =>
              save_match_result d rj.1.1.id rj.2.1.id (simf rj.1.2 rj.2.2) none)
            d) rid jid = some row ∧ row.adjusted_score = none
  | [], _, _, _, h => h
  | p :: ps, d, rid, jid, h => by
      rw [List.foldl_cons]
      apply batch_saves_adjusted_none simf ps
      by_cases hk : rid = p.1.1.id ∧ jid = p.2.1.id
      · rw [hk.1, hk.2, get_match_row_save_self]
        exact ⟨_, rfl, rfl⟩
      · rw [get_match_row_save_other _ _ _ _ _ _ _ hk]
        exact h

/-- C10: a resume-job pair recomputed by `calculate_similarity_batch` with
`save_results = true` ends with a persisted row whose `adjusted_score` is
`None`: the per-pair save replaces the whole
`(resume_id, job_id, embedding_model)` row without passing an adjusted
score, so any previously stored `adjusted_score` for the pair is lost. -/
theorem calculate_similarity_batch_resets_adjusted {V : Type}
    (simf : V → V → ℚ) (db : SoupBossDB V)
    (resume_ids job_ids : Option (List ℕ)) (r : ResumeRow × V) (j : JobRow × V)
    (hr : r ∈ _get_resumes_with_embeddings db resume_ids)
    (hj : j ∈ _get_jobs_with_embeddings db job_ids) :
    ∃ row,
      get_match_row (calculate_similarity_batch simf db resume_ids job_ids true).2
        r.1.id j.1.id = some row ∧ row.adjusted_score = none := by
  have h1 : _get_resumes_with_embeddings db resume_ids ≠ [] := by
    intro hnil
    rw [hnil] at hr
    cases hr
  have h2 : _get_jobs_with_embeddings db job_ids ≠ [] := by
    intro hnil
    rw [hnil] at hj
    cases hj
  have hsnd : (calculate_similarity_batch simf db resume_ids job_ids true).2
      = (batch_pairs db resume_ids job_ids).foldl
          (fun d rj =>
            save_match_result d rj.1.1.id rj.2.1.id (simf rj.1.2 rj.2.2) none)
          db := by
    dsimp only [calculate_similarity_batch]
    rw [if_neg (by simp [h1]), if_neg (by simp [h2])]
    exact foldl_batchStep_snd simf _ ([], db)
  rw [hsnd]
  have hpair : (r, j) ∈ batch_pairs db resume_ids job_ids := by
    unfold batch_pairs
    exact List.mem_flatMap.mpr ⟨r, hr, List.mem_map.mpr ⟨j, hj, rfl⟩⟩
  obtain ⟨l1, l2, hsplit⟩ := List.append_of_mem hpair
  rw [hsplit, List.foldl_append, List.foldl_cons]
  apply batch_saves_adjusted_none
  rw [get_match_row_save_self]
  exact ⟨_, rfl, rfl⟩

/-- One resume and one job, both embedded, with a preexisting match row
carrying a manually adjusted score. -/
def dbMatch : SoupBossDB ℕ :=
  ⟨[⟨5, "T", none, none, none, some "c", "co"⟩],
   [⟨2, "alice", some "r"⟩],
   [(5, 1)], [(2, 1)],
   [⟨2, 5, 1, some 2⟩]⟩

/-- C10 (witness): recomputing the single pair of `dbMatch` with saves on
wipes the previously stored adjusted score. -/
theorem calculate_similarity_batch_resets_adjusted_witness :
    get_match_row dbMatch 2 5 = some ⟨2, 5, 1, some 2⟩ ∧
    ((⟨2, "alice", some "r"⟩, 1) : ResumeRow × ℕ)
        ∈ _get_resumes_with_embeddings dbMatch none ∧
    ((⟨5, "T", none, none, none, some "c", "co"⟩, 1) : JobRow × ℕ)
        ∈ _get_jobs_with_embeddings dbMatch none ∧
    ∃ row,
      get_match_row
        (calculate_similarity_batch (fun _ _ => (1 : ℚ)) dbMatch none none true).2
        2 5 = some row ∧ row.adjusted_score = none := by
  refine ⟨by decide, by decide, by decide, ?_⟩
  exact calculate_similarity_batch_resets_adjusted (fun _ _ => (1 : ℚ)) dbMatch
    none none (⟨2, "alice", some "r"⟩, 1)
    (⟨5, "T", none, none, none, some "c", "co"⟩, 1) (by decide) (by decide)

/-! ### Model evaluator (src/soupboss/embedding_evaluation.py) -/

/-- The `ModelEvaluation` dataclass (lines 29-42). -/
structure ModelEvaluation where
  model_name : String
  total_jobs : ℕ
  total_resumes : ℕ
  avg_embedding_time : ℚ
  embedding_dimension : ℕ
  top_10_avg_score : ℚ
  score_variance : ℚ
  coverage_percentage : ℚ
  unique_matches_top_10 : ℕ
  diversity_score : ℚ
  processing_time : ℚ
deriving DecidableEq

/-- The `ComparisonResult` dataclass (lines 45-52).  The loosely typed
`comparison_summary` dict holds only presentation statistics and is not
modeled. -/
structure ComparisonResult where
  models : List ModelEvaluation
  best_by_score : String
  best_by_diversity : String
  best_by_speed : String
deriving DecidableEq

/-- Python's `max(x :: xs, key=key)`: scan left to right, replacing the
current best only on a strictly greater key — the first maximal element. -/
def pyMaxBy {α : Type} (key : α → ℚ) (x : α) (xs : List α) : α :=
  xs.foldl (fun best y => if key best < key y then y else best) x

/-- Python's `min(x :: xs, key=key)`: the first minimal element. -/
def pyMinBy {α : Type} (key : α → ℚ) (x : α) (xs : List α) : α :=
  xs.foldl (fun best y => if key y < key best then y else best) x

theorem pyMaxBy_spec {α : Type} (key : α → ℚ) :
    ∀ (xs : List α) (x : α),
      pyMaxBy key x xs ∈ x :: xs ∧
      ∀ y ∈ x :: xs, key y ≤ key (pyMaxBy key x xs)
  | [], x => by
      refine ⟨List.mem_cons_self x [], ?_⟩
      intro y hy
      rcases List.mem_cons.mp hy with h | h
      · subst h
        exact le_refl _
      · cases h
  | z :: zs, x => by
      have ih := pyMaxBy_spec key zs (if key x < key z then z else x)
      have hstep : key x ≤ key (if key x < key z then z else x)
          ∧ key z ≤ key (if key x < key z then z else x) := by
        by_cases hc : key x < key z
        · rw [if_pos hc]
          exact ⟨le_of_lt hc, le_refl _⟩
        · rw [if_neg hc]
          exact ⟨le_refl _, le_of_not_lt hc⟩
      have hunf : pyMaxBy key x (z :: zs)
          = pyMaxBy key (if key x < key z then z else x) zs := rfl
      constructor
      · rw [hunf]
        rcases List.mem_cons.mp ih.1 with h | h
        · rw [h]
          by_cases hc : key x < key z
          · rw [if_pos hc]
            exact List.mem_cons_of_mem x (List.mem_cons_self z zs)
          · rw [if_neg hc]
            exact List.mem_cons_self x _
        · exact List.mem_cons_of_mem x (List.mem_cons_of_mem z h)
      · intro y hy
        rw [hunf]
        have hbest := ih.2 (if key x < key z then z else x)
          (List.mem_cons_self _ zs)
        rcases List.mem_cons.mp hy with h | h
        · subst h
          exact le_trans hstep.1 hbest
        · rcases List.mem_cons.mp h with h2 | h2
          · subst h2
            exact le_trans hstep.2 hbest
          · exact ih.2 y (List.mem_cons_of_mem _ h2)

theorem pyMinBy_spec {α : Type} (key : α → ℚ) :
    ∀ (xs : List α) (x : α),
      pyMinBy key x xs ∈ x :: xs ∧
      ∀ y ∈ x :: xs, key (pyMinBy key x xs) ≤ key y
  | [], x => by
      refine ⟨List.mem_cons_self x [], ?_⟩
      intro y hy
      rcases List.mem_cons.mp hy with h | h
      · subst h
        exact le_refl _
      · cases h
  | z :: zs, x => by
      have ih := pyMinBy_spec key zs (if key z < key x then z else x)
      have hstep : key (if key z < key x then z else x) ≤ key x
          ∧ key (if key z < key x then z else x) ≤ key z := by
        by_cases hc : key z < key x
        · rw [if_pos hc]
          exact ⟨le_of_lt hc, le_refl _⟩
        · rw [if_neg hc]
          exact ⟨le_refl _, le_of_not_lt hc⟩
      have hunf : pyMinBy key x (z :: zs)
          = pyMinBy key (if key z < key x then z else x) zs := rfl
      constructor
      · rw [hunf]
        rcases List.mem_cons.mp ih.1 with h | h
        · rw [h]
          by_cases hc : key z < key x
          · rw [if_pos hc]
            exact List.mem_cons_of_mem x (List.mem_cons_self z zs)
          · rw [if_neg hc]
            exact List.mem_cons_self x _
        · exact List.mem_cons_of_mem x (List.mem_cons_of_mem z h)
      · intro y hy
        rw [hunf]
        have hbest := ih.2 (if key z < key x then z else x)
          (List.mem_cons_self _ zs)
        rcases List.mem_cons.mp hy with h | h
        · subst h
          exact le_trans hbest hstep.1
        · rcases List.mem_cons.mp h with h2 | h2
          · subst h2
            exact le_trans hbest hstep.2
          · exact ih.2 y (List.mem_cons_of_mem _ h2)

/-- Model of `EmbeddingModelEvaluator.compare_models` (lines 319-370).
`evalModel` stands for `generate_embeddings_for_model`, which either
returns a `ModelEvaluation` or raises (`Except.error`).  An empty (falsy)
`models_to_compare` falls back to `available_models`; a model whose
evaluation raises is logged and skipped (`except ... continue`); if no
evaluation survives, a `RuntimeError` is raised; the three winners are
picked independently by Python's `max`/`min` with the respective keys. -/
def compare_models (evalModel : String → Except String ModelEvaluation)
    (available_models models_to_compare : List String) :
    Except String ComparisonResult :=
  let ms := if models_to_compare = [] then available_models else models_to_compare
  let evaluations := ms.filterMap (fun m => (evalModel m).toOption)
  match evaluations with
  | [] => Except.error "No models could be evaluated"
  | e :: es =>
      Except.ok
        ⟨e :: es,
         (pyMaxBy (fun x => x.top_10_avg_score) e es).model_name,
         (pyMaxBy (fun x => x.diversity_score) e es).model_name,
         (pyMinBy (fun x => x.avg_embedding_time) e es).model_name⟩

/-- C9: `compare_models` evaluates the models in turn, skipping (not
aborting on) those that raise — the surviving evaluations, in order, are
exactly the returned `models` — and, when at least one survives, names
three independent winners: one attaining the maximum average top-10
score, one the maximum diversity score, and one the minimum average
embedding time; no combined score exists in the result. -/
theorem compare_models_spec (evalModel : String → Except String ModelEvaluation)
    (available_models models_to_compare : List String)
    (h : ((if models_to_compare = [] then available_models
        else models_to_compare).filterMap (fun m => (evalModel m).toOption)) ≠ []) :
    ∃ res,
      compare_models evalModel available_models models_to_compare
          = Except.ok res ∧
      res.models = (if models_to_compare = [] then available_models
          else models_to_compare).filterMap (fun m => (evalModel m).toOption) ∧
      (∃ e ∈ res.models, res.best_by_score = e.model_name ∧
        ∀ e2 ∈ res.models, e2.top_10_avg_score ≤ e.top_10_avg_score) ∧
      (∃ e ∈ res.models, res.best_by_diversity = e.model_name ∧
        ∀ e2 ∈ res.models, e2.diversity_score ≤ e.diversity_score) ∧
      (∃ e ∈ res.models, res.best_by_speed = e.model_name ∧
        ∀ e2 ∈ res.models, e.avg_embedding_time ≤ e2.avg_embedding_time) := by
  cases hevs : (if models_to_compare = [] then available_models
      else models_to_compare).filterMap (fun m => (evalModel m).toOption) with
  | nil => exact absurd hevs h
  | cons e es =>
      have hc : compare_models evalModel available_models models_to_compare
          = Except.ok
              ⟨e :: es,
               (pyMaxBy (fun x => x.top_10_avg_score) e es).model_name,
               (pyMaxBy (fun x => x.diversity_score) e es).model_name,
               (pyMinBy (fun x => x.avg_embedding_time) e es).model_name⟩ := by
        dsimp only [compare_models]
        rw [hevs]
      refine ⟨_, hc, rfl, ?_, ?_, ?_⟩
      · exact ⟨pyMaxBy (fun x => x.top_10_avg_score) e es,
          (pyMaxBy_spec _ es e).1, rfl,
          fun e2 h2 => (pyMaxBy_spec _ es e).2 e2 h2⟩
      · exact ⟨pyMaxBy (fun x => x.diversity_score) e es,
          (pyMaxBy_spec _ es e).1, rfl,
          fun e2 h2 => (pyMaxBy_spec _ es e).2 e2 h2⟩
      · exact ⟨pyMinBy (fun x => x.avg_embedding_time) e es,
          (pyMinBy_spec _ es e).1, rfl,
          fun e2 h2 => (pyMinBy_spec _ es e).2 e2 h2⟩

/-- A stub evaluation holding only the fields the winners are chosen by. -/
def evalStub (name : String) (score div speed : ℚ) : ModelEvaluation :=
  ⟨name, 0, 0, speed, 0, score, 0, 0, 0, div, 0⟩

/-- A concrete evaluator: model "bad" raises; "a" and "b" succeed with
distinct winners per criterion. -/
def evalModelW : String → Except String ModelEvaluation := fun m =>
  if m = "bad" then Except.error "unavailable"
  else if m = "a" then Except.ok (evalStub "a" 1 5 3)
  else Except.ok (evalStub "b" 2 4 7)

/-- C9 (witness): with models ["bad", "a", "b"], the bad model is skipped
and the three winners exist over the two surviving evaluations. -/
theorem compare_models_spec_witness :
    ∃ res,
      compare_models evalModelW [] ["bad", "a", "b"] = Except.ok res ∧
      res.models = (if (["bad", "a", "b"] : List String) = [] then ([] : List String)
          else ["bad", "a", "b"]).filterMap (fun m => (evalModelW m).toOption) ∧
      (∃ e ∈ res.models, res.best_by_score = e.model_name ∧
        ∀ e2 ∈ res.models, e2.top_10_avg_score ≤ e.top_10_avg_score) ∧
      (∃ e ∈ res.models, res.best_by_diversity = e.model_name ∧
        ∀ e2 ∈ res.models, e2.diversity_score ≤ e.diversity_score) ∧
      (∃ e ∈ res.models, res.best_by_speed = e.model_name ∧
        ∀ e2 ∈ res.models, e.avg_embedding_time ≤ e2.avg_embedding_time) :=
  compare_models_spec evalModelW [] ["bad", "a", "b"] (by decide)

end SoupBoss
